import Mathlib

/-!
Verification of the shape/dataspace layer (`src/space.rs`) and the randomized
type round-trip generators (`tests/common/gen.rs`) of the hdf5-rust binding.

The pure Rust code is embedded directly.  The external HDF5 runtime
(`H5Screate_simple`, `H5Sget_simple_extent_ndims`, `H5Sget_simple_extent_dims`,
`H5Iget_type`/`get_id_type`, `Handle::new`) is not part of the sources and is
modelled from the specification as an explicit object table with injectable
query failures.  Randomness is modelled by passing the sequence of sampled
values explicitly, constrained by the range of the distribution the code uses.
-/

namespace Hdf5

/-! ## Dimension trait (src/space.rs) -/

/-- The default `Dimension::size` method: `if dims.is_empty() { 0 } else
{ dims.iter().fold(1, |acc, &el| acc * el) }`. -/
def sizeOfDims (dims : List Nat) : Nat :=
  if dims.isEmpty then 0 else dims.foldl (fun acc el => acc * el) 1

/-- The concrete conforming shape descriptions implementing `Dimension` in
`space.rs`: `()`, `Ix` (a single integer), `(Ix,)`, `(Ix, Ix)`, `Vec<Ix>`.
The blanket `&T` impl delegates and adds no behaviour. -/
inductive Dim where
  | unit : Dim
  | ix : Nat → Dim
  | tup1 : Nat → Dim
  | tup2 : Nat → Nat → Dim
  | vec : List Nat → Dim
  deriving DecidableEq, Repr

/-- `ndim` of each impl, as written in `space.rs`. -/
def Dim.ndim : Dim → Nat
  | .unit => 0
  | .ix _ => 1
  | .tup1 _ => 1
  | .tup2 _ _ => 2
  | .vec l => l.length

/-- `dims` of each impl, as written in `space.rs`. -/
def Dim.dims : Dim → List Nat
  | .unit => []
  | .ix n => [n]
  | .tup1 n => [n]
  | .tup2 m n => [m, n]
  | .vec l => l

/-- Every impl in `space.rs` uses the default `size` method. -/
def Dim.size (d : Dim) : Nat := sizeOfDims d.dims

theorem Dim.dims_length (d : Dim) : d.dims.length = d.ndim := by
  cases d <;> rfl

theorem Dim.dims_nil_of_ndim_zero (d : Dim) (h : d.ndim = 0) : d.dims = [] := by
  have := d.dims_length
  rw [h] at this
  exact List.length_eq_zero.mp this

theorem sizeOfDims_eq (l : List Nat) :
    sizeOfDims l = if l = [] then 0 else l.prod := by
  unfold sizeOfDims
  rcases l with _ | ⟨a, l⟩
  · rfl
  · simp [List.prod_eq_foldl]

/-- C1: for every conforming shape description `d`, `size d` is the product
of the extents of `dims d` when the rank is positive, and `0` (not `1`)
when the rank is `0`, i.e. when `dims d` is empty. -/
theorem size_spec (d : Dim) :
    (0 < d.ndim → d.size = d.dims.prod) ∧ (d.ndim = 0 → d.size = 0) := by
  constructor
  · intro h
    have hne : d.dims ≠ [] := by
      intro hnil
      have hl := d.dims_length
      rw [hnil] at hl
      simp at hl
      omega
    rw [Dim.size, sizeOfDims_eq, if_neg hne]
  · intro h
    rw [Dim.size, d.dims_nil_of_ndim_zero h]
    rfl

/-- C1 witness: the theorem applied at the concrete shapes `(3, 4)` and `()`. -/
theorem size_spec_witness :
    (Dim.tup2 3 4).size = (Dim.tup2 3 4).dims.prod ∧ Dim.unit.size = 0 :=
  ⟨(size_spec (Dim.tup2 3 4)).1 (by decide), (size_spec Dim.unit).2 (by decide)⟩

/-! ## External runtime model -/

/-- `H5S_UNLIMITED` is `(hsize_t)(-1)`, i.e. the all-ones 64-bit value. -/
def H5S_UNLIMITED : Nat := 2 ^ 64 - 1

/-- A registered simple dataspace inside the runtime's object table. -/
structure SpaceObj where
  rank : Nat
  extents : List Nat
  maxExtents : List Nat
  deriving DecidableEq, Repr

/-- The kind the runtime reports for an identifier (`H5Iget_type`):
a dataspace, some other live kind, or `H5I_BADID` (negative or released id). -/
inductive IdKind where
  | dataspace
  | otherKind
  | badid
  deriving DecidableEq, Repr

/-- Modelled from the spec: the external native runtime's internal object
table (`create_dataspace`, `query_resource_kind`, `query_dataspace_rank`,
`query_dataspace_extents` of §6), which the sources reach only through FFI.
`createFails`, `ndimsFails` and `dimsFails` inject the boundary-call failures
the spec allows at each of the three calls. -/
structure Runtime where
  spaces : List (Int × SpaceObj)
  others : List Int
  nextId : Int
  createFails : Bool
  ndimsFails : Bool
  dimsFails : Bool
  deriving DecidableEq, Repr

/-- Look an identifier up in the dataspace table (first match wins). -/
def Runtime.lookupSpace (rt : Runtime) (id : Int) : Option SpaceObj :=
  (rt.spaces.find? (fun p => p.1 == id)).map (·.2)

/-- Modelled from the spec: `query_resource_kind` — reports the kind of a
live identifier, or no recognizable kind for a negative/released one. -/
def get_id_type (rt : Runtime) (id : Int) : IdKind :=
  match rt.lookupSpace id with
  | some _ => .dataspace
  | none => if id ∈ rt.others then .otherKind else .badid

/-- Modelled from the spec: `create_dataspace(rank, current_extents[],
max_extents[]) -> identifier | failure` — on success registers a fresh
identifier with the given rank and extent arrays. -/
def H5Screate_simple (rt : Runtime) (rank : Nat) (dims maxDims : List Nat) :
    Except Unit (Int × Runtime) :=
  if rt.createFails then .error ()
  else .ok (rt.nextId,
    { rt with
      spaces := (rt.nextId, ⟨rank, dims, maxDims⟩) :: rt.spaces
      nextId := rt.nextId + 1 })

/-- Modelled from the spec: `query_dataspace_rank(identifier) -> rank |
failure`. -/
def H5Sget_simple_extent_ndims (rt : Runtime) (id : Int) : Option Nat :=
  if rt.ndimsFails then none else (rt.lookupSpace id).map (·.rank)

/-- Modelled from the spec: `query_dataspace_extents(identifier) ->
current_extents[] | failure` — fills the caller's buffer with the registered
current extents. -/
def H5Sget_simple_extent_dims (rt : Runtime) (id : Int) : Option (List Nat) :=
  if rt.dimsFails then none else (rt.lookupSpace id).map (·.extents)

/-! ## Handle and Dataspace (src/handle.rs is absent; src/space.rs is embedded) -/

/-- Errors, following the spec's taxonomy (§7). `invalidResource` carries the
offending identifier, mirroring `format!("Invalid dataspace id: {}", id)`. -/
inductive H5Error where
  | invalidResource (id : Int)
  | runtimeCallFailure
  deriving DecidableEq, Repr

/-- An owning handle around a native identifier. -/
structure Handle where
  id : Int
  deriving DecidableEq, Repr

/-- Modelled from the spec: `Handle::new` (handle.rs is not in the sources) —
wrap fails with an `InvalidResource` error exactly when the runtime reports
no recognizable kind for the identifier, and otherwise produces an owning
handle around it. -/
def Handle.new (rt : Runtime) (id : Int) : Except H5Error Handle :=
  if get_id_type rt id = .badid then .error (.invalidResource id) else .ok ⟨id⟩

/-- `Dataspace` owns one handle (src/space.rs). -/
structure Dataspace where
  handle : Handle
  deriving DecidableEq, Repr

/-- `ID::from_id` for `Dataspace` (src/space.rs): match on `get_id_type(id)`;
in the `H5I_DATASPACE` arm build the handle with `try!(Handle::new(id))`,
otherwise fail with the "Invalid dataspace id" error. -/
def Dataspace.fromId (rt : Runtime) (id : Int) : Except H5Error Dataspace :=
  match get_id_type rt id with
  | .dataspace => (Handle.new rt id).map (fun h => ⟨h⟩)
  | _ => .error (.invalidResource id)

/-- `Dataspace::new` (src/space.rs): take `rank = d.ndim()`, push each of
`d.dims()` into `dims` and `H5S_UNLIMITED` into `max_dims`, call
`H5Screate_simple` (propagating its failure via `h5try!`), and wrap the
returned identifier with `Dataspace::from_id`. -/
def Dataspace.new (rt : Runtime) (d : Dim) : Except H5Error (Dataspace × Runtime) :=
  let rank := d.ndim
  let dims := d.dims
  let maxDims := List.replicate d.dims.length H5S_UNLIMITED
  match H5Screate_simple rt rank dims maxDims with
  | .error _ => .error .runtimeCallFailure
  | .ok (id, rt') => (Dataspace.fromId rt' id).map (fun ds => (ds, rt'))

/-- `Dimension::ndim` for `Dataspace` (src/space.rs):
`h5call!(H5Sget_simple_extent_ndims(self.id())).unwrap_or(0)`. -/
def Dataspace.ndim (rt : Runtime) (ds : Dataspace) : Nat :=
  (H5Sget_simple_extent_ndims rt ds.handle.id).getD 0

/-- `Dimension::dims` for `Dataspace` (src/space.rs): query `ndim`; when it is
positive, fill a buffer of that length via `H5Sget_simple_extent_dims` and
return it on success; on any other path return the empty vector. -/
def Dataspace.dims (rt : Runtime) (ds : Dataspace) : List Nat :=
  let ndim := Dataspace.ndim rt ds
  if ndim > 0 then
    match H5Sget_simple_extent_dims rt ds.handle.id with
    | some buf => buf
    | none => []
  else []

/-- The runtime state after a successful `H5Screate_simple` issued by
`Dataspace::new` on shape `d`. -/
def Runtime.afterCreate (rt : Runtime) (d : Dim) : Runtime :=
  { rt with
    spaces := (rt.nextId,
      ⟨d.ndim, d.dims, List.replicate d.dims.length H5S_UNLIMITED⟩) :: rt.spaces
    nextId := rt.nextId + 1 }

theorem lookupSpace_afterCreate (rt : Runtime) (d : Dim) :
    (rt.afterCreate d).lookupSpace rt.nextId =
    some ⟨d.ndim, d.dims, List.replicate d.dims.length H5S_UNLIMITED⟩ := by
  simp [Runtime.afterCreate, Runtime.lookupSpace, List.find?]

theorem dataspace_new_eq_ok (rt : Runtime) (d : Dim) (hc : rt.createFails = false) :
    Dataspace.new rt d = .ok (⟨⟨rt.nextId⟩⟩, rt.afterCreate d) := by
  obtain ⟨sp, ot, ni, cf, nf, df⟩ := rt
  simp only at hc
  subst hc
  have hkind : get_id_type
      ⟨(ni, ⟨d.ndim, d.dims, List.replicate d.dims.length H5S_UNLIMITED⟩) :: sp,
        ot, ni + 1, false, nf, df⟩ ni = .dataspace := by
    simp [get_id_type, Runtime.lookupSpace, List.find?]
  simp [Dataspace.new, H5Screate_simple, Dataspace.fromId, Handle.new, hkind,
    Except.map, Runtime.afterCreate]

/-- C2: a dataspace successfully constructed from a shape `d` and immediately
queried (with the runtime answering the two extent queries) reports exactly
`d.ndim` and `d.dims`. -/
theorem dataspace_round_trip (rt : Runtime) (d : Dim) (ds : Dataspace) (rt' : Runtime)
    (h1 : rt.ndimsFails = false) (h2 : rt.dimsFails = false)
    (hnew : Dataspace.new rt d = .ok (ds, rt')) :
    Dataspace.ndim rt' ds = d.ndim ∧ Dataspace.dims rt' ds = d.dims := by
  by_cases hc : rt.createFails
  · rw [Dataspace.new, H5Screate_simple, hc] at hnew
    simp at hnew
  · rw [dataspace_new_eq_ok rt d (by simpa using hc)] at hnew
    obtain ⟨hds, hrt⟩ : ds = ⟨⟨rt.nextId⟩⟩ ∧ rt' = rt.afterCreate d := by
      constructor <;> [exact (Prod.mk.injEq .. ▸ Except.ok.inj hnew.symm).1;
        exact (Prod.mk.injEq .. ▸ Except.ok.inj hnew.symm).2]
    subst hds hrt
    have hnd : Dataspace.ndim (rt.afterCreate d) ⟨⟨rt.nextId⟩⟩ = d.ndim := by
      rw [Dataspace.ndim, H5Sget_simple_extent_ndims]
      have : (rt.afterCreate d).ndimsFails = false := h1
      rw [this]
      simp [lookupSpace_afterCreate]
    refine ⟨hnd, ?_⟩
    rw [Dataspace.dims]
    simp only [hnd]
    by_cases hpos : d.ndim > 0
    · rw [if_pos hpos, H5Sget_simple_extent_dims]
      have : (rt.afterCreate d).dimsFails = false := h2
      rw [this]
      simp [lookupSpace_afterCreate]
    · rw [if_neg hpos, d.dims_nil_of_ndim_zero (by omega)]

def rt0 : Runtime := ⟨[], [], 1, false, false, false⟩

/-- C2 witness: building a dataspace from `(3, 4)` in an empty runtime and
re-querying it returns rank 2 and extents `[3, 4]`. -/
theorem dataspace_round_trip_witness :
    Dataspace.ndim (rt0.afterCreate (Dim.tup2 3 4)) ⟨⟨1⟩⟩ = (Dim.tup2 3 4).ndim ∧
    Dataspace.dims (rt0.afterCreate (Dim.tup2 3 4)) ⟨⟨1⟩⟩ = (Dim.tup2 3 4).dims :=
  dataspace_round_trip rt0 (Dim.tup2 3 4) ⟨⟨1⟩⟩ (rt0.afterCreate (Dim.tup2 3 4))
    rfl rfl (dataspace_new_eq_ok rt0 (Dim.tup2 3 4) rfl)

/-- C3: `Dataspace::new` registers rank `d.ndim`, extents `d.dims` and a
maximum-extent array made entirely of `H5S_UNLIMITED`, wraps the fresh
identifier as a handle whose runtime kind is dataspace, and propagates the
creation failure (never succeeding) when the creation call fails. -/
theorem dataspace_new_spec (rt : Runtime) (d : Dim) :
    (rt.createFails = true → Dataspace.new rt d = .error H5Error.runtimeCallFailure) ∧
    (rt.createFails = false →
      Dataspace.new rt d = .ok (⟨⟨rt.nextId⟩⟩, rt.afterCreate d) ∧
      (rt.afterCreate d).lookupSpace rt.nextId =
        some ⟨d.ndim, d.dims, List.replicate d.dims.length H5S_UNLIMITED⟩ ∧
      (∀ m ∈ List.replicate d.dims.length H5S_UNLIMITED, m = H5S_UNLIMITED) ∧
      get_id_type (rt.afterCreate d) rt.nextId = IdKind.dataspace) := by
  refine ⟨fun hc => ?_, fun hc => ?_⟩
  · rw [Dataspace.new, H5Screate_simple, hc]
    rfl
  · refine ⟨dataspace_new_eq_ok rt d hc, lookupSpace_afterCreate rt d, ?_, ?_⟩
    · intro m hm
      exact List.eq_of_mem_replicate hm
    · rw [get_id_type, lookupSpace_afterCreate]

/-- C3 witness: in the empty runtime the constructor succeeds on shape `5`
and registers `⟨1, [5], [H5S_UNLIMITED]⟩` under the fresh identifier. -/
theorem dataspace_new_spec_witness :
    Dataspace.new rt0 (Dim.ix 5) = .ok (⟨⟨1⟩⟩, rt0.afterCreate (Dim.ix 5)) ∧
    (rt0.afterCreate (Dim.ix 5)).lookupSpace 1 =
      some ⟨1, [5], List.replicate 1 H5S_UNLIMITED⟩ ∧
    (∀ m ∈ List.replicate (Dim.ix 5).dims.length H5S_UNLIMITED, m = H5S_UNLIMITED) ∧
    get_id_type (rt0.afterCreate (Dim.ix 5)) 1 = IdKind.dataspace :=
  (dataspace_new_spec rt0 (Dim.ix 5)).2 rfl

/-- C4: wrapping an identifier succeeds (producing the owning handle) exactly
when the runtime reports its kind as dataspace; for any other reported kind
the wrap fails with the invalid-resource error and no handle is produced. -/
theorem from_id_spec (rt : Runtime) (id : Int) :
    (Dataspace.fromId rt id = .ok ⟨⟨id⟩⟩ ↔ get_id_type rt id = .dataspace) ∧
    (get_id_type rt id ≠ .dataspace →
      Dataspace.fromId rt id = .error (.invalidResource id)) := by
  rw [Dataspace.fromId]
  cases hk : get_id_type rt id
  · refine ⟨⟨fun _ => rfl, fun _ => ?_⟩, fun hne => absurd rfl hne⟩
    rw [Handle.new, hk]
    rfl
  · exact ⟨⟨fun h => by simp at h, fun h => by simp at h⟩, fun _ => rfl⟩
  · exact ⟨⟨fun h => by simp at h, fun h => by simp at h⟩, fun _ => rfl⟩

def rtLive : Runtime := ⟨[(1, ⟨2, [3, 4], [H5S_UNLIMITED, H5S_UNLIMITED]⟩)], [2], 3,
  false, false, false⟩

/-- C4 witness: in a runtime holding dataspace 1 and a non-dataspace
resource 2, wrapping 1 succeeds and wrapping released/unknown identifier 7
fails with the invalid-resource error. -/
theorem from_id_spec_witness :
    Dataspace.fromId rtLive 1 = .ok ⟨⟨1⟩⟩ ∧
    Dataspace.fromId rtLive 7 = .error (.invalidResource 7) :=
  ⟨(from_id_spec rtLive 1).1.mpr (by decide),
   (from_id_spec rtLive 7).2 (by decide)⟩

/-! ## Internal consistency of the live-dataspace queries (C5, C6) -/

/-- Well-formedness of the runtime table: every registered dataspace stores
as many current extents as its rank (which creation establishes). -/
def Runtime.WF (rt : Runtime) : Prop :=
  ∀ p ∈ rt.spaces, (p.2 : SpaceObj).extents.length = p.2.rank

instance (rt : Runtime) : Decidable rt.WF := by
  unfold Runtime.WF
  infer_instance

/-- A runtime holding dataspace 1 of rank 2 whose extent query fails. -/
def rtDimsFail : Runtime :=
  ⟨[(1, ⟨2, [3, 4], [H5S_UNLIMITED, H5S_UNLIMITED]⟩)], [], 2, false, false, true⟩

/-- C5 counterexample: on the failure path where the rank query succeeds
(rank 2) but the extent query fails, `dims()` is empty while `ndim()` is 2,
so the reported rank and extents are not internally consistent. -/
theorem dims_length_ne_ndim_counterexample :
    ¬ ((Dataspace.dims rtDimsFail ⟨⟨1⟩⟩).length = Dataspace.ndim rtDimsFail ⟨⟨1⟩⟩) := by
  decide

/-- C5 amended: the length of `dims()` equals `ndim()` on every path except
the one where the extent query fails while the reported rank is positive
(there `dims()` collapses to the empty vector): consistency holds whenever
the extent query succeeds or the reported rank is zero, for any well-formed
runtime table. -/
theorem dims_length_eq_ndim (rt : Runtime) (ds : Dataspace) (hwf : rt.WF)
    (h : rt.dimsFails = false ∨ Dataspace.ndim rt ds = 0) :
    (Dataspace.dims rt ds).length = Dataspace.ndim rt ds := by
  rw [Dataspace.dims]
  by_cases hpos : Dataspace.ndim rt ds > 0
  · rw [if_pos hpos]
    have hdf : rt.dimsFails = false := by
      rcases h with h | h
      · exact h
      · omega
    have hnf : rt.ndimsFails = false := by
      by_contra hnf
      have : Dataspace.ndim rt ds = 0 := by
        rw [Dataspace.ndim, H5Sget_simple_extent_ndims,
          if_pos (Bool.of_not_eq_false hnf)]
        rfl
      omega
    rcases hobj : rt.lookupSpace ds.handle.id with _ | obj
    · exfalso
      have : Dataspace.ndim rt ds = 0 := by
        rw [Dataspace.ndim, H5Sget_simple_extent_ndims, hnf, hobj]
        rfl
      omega
    · rw [H5Sget_simple_extent_dims, hdf, hobj]
      have hrank : Dataspace.ndim rt ds = obj.rank := by
        rw [Dataspace.ndim, H5Sget_simple_extent_ndims, hnf, hobj]
        rfl
      rw [hrank]
      rcases hf : rt.spaces.find? (fun p => p.1 == ds.handle.id) with _ | q
      · rw [Runtime.lookupSpace, hf] at hobj
        simp at hobj
      · have hq : q.2 = obj := by
          rw [Runtime.lookupSpace, hf] at hobj
          simpa using hobj
        have hmem : q ∈ rt.spaces := List.mem_of_find?_eq_some hf
        have := hwf q hmem
        rw [hq] at this
        exact this
  · rw [if_neg hpos]
    simp only [List.length_nil]
    omega

/-- C5 amended witness: in a well-formed runtime whose queries succeed,
`dims()` of dataspace 1 has length `ndim()`. -/
theorem dims_length_eq_ndim_witness :
    (Dataspace.dims rtLive ⟨⟨1⟩⟩).length = Dataspace.ndim rtLive ⟨⟨1⟩⟩ :=
  dims_length_eq_ndim rtLive ⟨⟨1⟩⟩ (by decide) (Or.inl rfl)

/-- C6 counterexample: when only the extent query fails (the rank query
still succeeds with rank 2), `ndim()` returns 2, not the claimed best-effort
default 0. -/
theorem ndim_not_defaulted_counterexample :
    ¬ (Dataspace.ndim rtDimsFail ⟨⟨1⟩⟩ = 0) := by
  decide

/-- C6 amended: the query methods never propagate an error; `ndim()` falls
back to 0 exactly when its own rank query fails (and then `dims()` is empty
too), and `dims()` falls back to the empty vector whenever the extent query
fails — but a failing extent query alone leaves `ndim()` reporting the
successfully queried rank. -/
theorem query_failure_defaults (rt : Runtime) (ds : Dataspace) :
    (rt.ndimsFails = true →
      Dataspace.ndim rt ds = 0 ∧ Dataspace.dims rt ds = []) ∧
    (rt.dimsFails = true → Dataspace.dims rt ds = []) := by
  constructor
  · intro hn
    have hz : Dataspace.ndim rt ds = 0 := by
      rw [Dataspace.ndim, H5Sget_simple_extent_ndims, hn]
      rfl
    refine ⟨hz, ?_⟩
    rw [Dataspace.dims]
    simp [hz]
  · intro hd
    rw [Dataspace.dims]
    by_cases hpos : Dataspace.ndim rt ds > 0
    · rw [if_pos hpos, H5Sget_simple_extent_dims, hd]
      rfl
    · rw [if_neg hpos]

/-- A runtime holding dataspace 1 whose rank query fails. -/
def rtNdimsFail : Runtime :=
  ⟨[(1, ⟨2, [3, 4], [H5S_UNLIMITED, H5S_UNLIMITED]⟩)], [], 2, false, true, false⟩

/-- C6 amended witness: with a failing rank query, dataspace 1 reports
rank 0 and empty extents. -/
theorem query_failure_defaults_witness :
    Dataspace.ndim rtNdimsFail ⟨⟨1⟩⟩ = 0 ∧ Dataspace.dims rtNdimsFail ⟨⟨1⟩⟩ = [] :=
  (query_failure_defaults rtNdimsFail ⟨⟨1⟩⟩).1 rfl

/-! ## Randomized generators (tests/common/gen.rs)

A character is modelled by its Unicode scalar value; `utf8Len` is Rust's
`char::len_utf8`. A random source is modelled by passing the sequence of
sampled values explicitly, with hypotheses recording the range of the
distribution the code samples from. -/

/-- `char::len_utf8` as a function of the scalar value. -/
def utf8Len (c : Nat) : Nat :=
  if c < 0x80 then 1 else if c < 0x800 then 2 else if c < 0x10000 then 3 else 4

/-- `str::as_bytes().len()` of the pushed characters. -/
def byteLen (s : List Nat) : Nat := (s.map utf8Len).sum

theorem utf8Len_pos (c : Nat) : 1 ≤ utf8Len c := by
  unfold utf8Len
  split <;> [omega; split <;> [omega; split <;> omega]]

theorem utf8Len_le_four (c : Nat) : utf8Len c ≤ 4 := by
  unfold utf8Len
  split <;> [omega; split <;> [omega; split <;> omega]]

theorem byteLen_append_one (s : List Nat) (c : Nat) :
    byteLen (s ++ [c]) = byteLen s + utf8Len c := by
  simp [byteLen]

/-- `Gen for FixedAscii` (gen.rs): after sampling
`len ∈ Uniform[0, capacity]`, push `len` draws from `Uniform[0, 127]`. -/
def fixedAsciiGen (len : Nat) (draws : List Nat) : List Nat :=
  draws.take len

/-- The loop body of `Gen for FixedUnicode` (gen.rs): for each of at most
`len` drawn characters, skip the null character, break as soon as
`s.as_bytes().len() + c.len_utf8() >= len`, otherwise push. -/
def fixedUnicodeGo (len : Nat) : List Nat → List Nat → List Nat
  | [], s => s
  | c :: cs, s =>
    if c = 0 then fixedUnicodeGo len cs s
    else if byteLen s + utf8Len c ≥ len then s
    else fixedUnicodeGo len cs (s ++ [c])

/-- `Gen for FixedUnicode` (gen.rs): sample `len ∈ Uniform[0, capacity]`,
then run the `for _ in 0..len` loop over the character draws. -/
def fixedUnicodeGen (len : Nat) (draws : List Nat) : List Nat :=
  fixedUnicodeGo len (draws.take len) []

/-- The fixed-capacity unicode generator as the claim words it: append drawn
characters one at a time, skipping the null character, and stop as soon as
appending the next character would exceed the byte capacity. -/
def fixedUnicodeClaimGo (cap : Nat) : List Nat → List Nat → List Nat
  | [], s => s
  | c :: cs, s =>
    if c = 0 then fixedUnicodeClaimGo cap cs s
    else if byteLen s + utf8Len c > cap then s
    else fixedUnicodeClaimGo cap cs (s ++ [c])

/-- The claim's generator run from the empty string. -/
def fixedUnicodeClaimGen (cap : Nat) (draws : List Nat) : List Nat :=
  fixedUnicodeClaimGo cap draws []

/-- `Gen for VarLenAscii` (gen.rs): sample `len ∈ Uniform[0, 8]`, push `len`
draws from `Uniform[0, 127]`. -/
def varLenAsciiGen (len : Nat) (draws : List Nat) : List Nat :=
  draws.take len

/-- The loop of `Gen for VarLenUnicode` (gen.rs): `while s.len() < len`,
draw a character and push it unless it is null.  The `while` guard compares
the BYTE length of `s` with `len`. -/
def varLenUnicodeGo (len : Nat) : List Nat → List Nat → List Nat
  | [], s => s
  | c :: cs, s =>
    if byteLen s < len then
      if c = 0 then varLenUnicodeGo len cs s
      else varLenUnicodeGo len cs (s ++ [c])
    else s

/-- `Gen for VarLenUnicode` (gen.rs), run over a finite stream of character
draws.  A run of the real loop that terminates having drawn the characters
`draws` (so that the guard fails right after the last draw, or never pushed
again) produces exactly this value. -/
def varLenUnicodeGen (len : Nat) (draws : List Nat) : List Nat :=
  varLenUnicodeGo len draws []

/-- `Gen for VarLenArray` (gen.rs): sample `len ∈ Uniform[0, 8]`, generate
`len` elements recursively (the element draws are passed as a stream). -/
def varLenArrayGen {α : Type} (len : Nat) (elemDraws : List α) : List α :=
  elemDraws.take len

/-- `gen_shape` (gen.rs): `ndim` draws of `rng.gen_range(0, 11)`. -/
def gen_shape (draws : List Nat) (ndim : Nat) : List Nat :=
  draws.take ndim

/-- `gen_vec` (gen.rs): `size` recursively generated elements. -/
def gen_vec {α : Type} (draws : List α) (size : Nat) : List α :=
  draws.take size

/-- The number of `usize` values on the 64-bit targets the crate runs on. -/
def USIZE_SIZE : Nat := 2 ^ 64

/-- `shape.iter().product::<usize>()` in a release build: each
multiplication wraps modulo `2^64`.  (A debug build panics at the first
overflowing step instead.) -/
def wrappingProd (l : List Nat) : Nat :=
  l.foldl (fun acc x => acc * x % USIZE_SIZE) 1

/-- `usize` overflow-checked product (a fold of `checked_mul`, as ndarray's
`size_checked` computes it): `none` as soon as one step overflows. -/
def checkedProd (l : List Nat) : Option Nat :=
  l.foldl
    (fun acc x => acc.bind (fun a => if a * x < USIZE_SIZE then some (a * x) else none))
    (some 1)

/-- A dynamically-shaped array (the `ndarray::ArrayD` the harness builds). -/
structure ArrayD (α : Type) where
  shape : List Nat
  data : List α

/-- Modelled from ndarray's documented contract: `ArrayD::from_shape_vec`
recomputes the shape's element count with overflow-checked multiplication
and succeeds exactly when that checked count exists and equals the number of
elements; an overflow or a mismatch yields a shape error, on which the
`.unwrap()` in `gen_arr` panics. -/
def from_shape_vec {α : Type} (shape : List Nat) (v : List α) : Option (ArrayD α) :=
  if checkedProd shape = some v.length then some ⟨shape, v⟩ else none

/-- `gen_arr` (gen.rs): generate a shape of `ndim` axes, a vector of
`size = shape.iter().product()` elements (the release-build wrapping
product), and assemble them with
`ArrayD::from_shape_vec(shape, vec).unwrap()`. -/
def gen_arr {α : Type} (shapeDraws : List Nat) (elemDraws : List α) (ndim : Nat) :
    Option (ArrayD α) :=
  let shape := gen_shape shapeDraws ndim
  let size := wrappingProd shape
  let v := gen_vec elemDraws size
  from_shape_vec shape v

/-! ## C7: FixedUnicode byte budget -/

/-- C7 counterexample: with capacity 1 the generator samples `len = 1 ≤ 1`
and, drawing the 1-byte character `'a'` (97), produces the empty string,
while the claimed stop-on-exceeding-the-capacity rule would produce `"a"`:
the code breaks as soon as the byte length would REACH the sampled length
`len`, not when it would exceed the capacity. -/
theorem fixed_unicode_budget_counterexample :
    (1 : Nat) ≤ 1 ∧ fixedUnicodeGen 1 [97] ≠ fixedUnicodeClaimGen 1 [97] := by
  decide

theorem fixedUnicodeGo_spec (len : Nat) (cs : List Nat) :
    ∀ s : List Nat, (∀ c ∈ s, c ≠ 0) → byteLen s ≤ len → (0 < len → byteLen s < len) →
    (∀ c ∈ fixedUnicodeGo len cs s, c ≠ 0) ∧
    byteLen (fixedUnicodeGo len cs s) ≤ len ∧
    (0 < len → byteLen (fixedUnicodeGo len cs s) < len) := by
  induction cs with
  | nil => exact fun s hn hle hlt => ⟨hn, hle, hlt⟩
  | cons c cs ih =>
    intro s hn hle hlt
    rw [fixedUnicodeGo]
    by_cases hz : c = 0
    · rw [if_pos hz]
      exact ih s hn hle hlt
    · rw [if_neg hz]
      by_cases hbreak : byteLen s + utf8Len c ≥ len
      · rw [if_pos hbreak]
        exact ⟨hn, hle, hlt⟩
      · rw [if_neg hbreak]
        refine ih (s ++ [c]) ?_ ?_ ?_
        · intro x hx
          rcases List.mem_append.mp hx with hx | hx
          · exact hn x hx
          · rw [List.mem_singleton.mp hx]
            exact hz
        · rw [byteLen_append_one]
          omega
        · intro _
          rw [byteLen_append_one]
          omega

/-- C7 amended: the generator appends non-null characters drawn one at a
time (at most `len` of them) and stops as soon as appending the next one
would reach or exceed the sampled length `len` — `len`, uniform in
`[0, capacity]`, is the byte budget, and the budget is exclusive: the byte
length stays strictly below `len` whenever `len > 0` (and is 0 at
`len = 0`). -/
theorem fixed_unicode_gen_spec (len : Nat) (draws : List Nat) :
    (∀ c ∈ fixedUnicodeGen len draws, c ≠ 0) ∧
    byteLen (fixedUnicodeGen len draws) ≤ len ∧
    (0 < len → byteLen (fixedUnicodeGen len draws) < len) :=
  fixedUnicodeGo_spec len (draws.take len) [] (by simp) (Nat.zero_le _)
    (fun h => h)

/-- C7 amended witness: with budget 3 and draws `"abc"` the result has byte
length strictly below 3 (it is `"ab"`). -/
theorem fixed_unicode_gen_spec_witness :
    byteLen (fixedUnicodeGen 3 [97, 98, 99]) < 3 :=
  (fixed_unicode_gen_spec 3 [97, 98, 99]).2.2 (by decide)

/-! ## C8: variable-length generation bounds -/

/-- C8 counterexample: sampling `len = 8 ≤ 8` and drawing the 3-byte
character U+20AC three times, the VarLenUnicode loop (`while s.len() < len`)
pushes all three and terminates with byte length 9 > 8. -/
theorem var_len_unicode_overshoot_counterexample :
    (8 : Nat) ≤ 8 ∧ ¬ (byteLen (varLenUnicodeGen 8 [8364, 8364, 8364]) ≤ 8) := by
  decide

theorem varLenUnicodeGo_byteLen (len : Nat) (cs : List Nat) :
    ∀ s : List Nat, byteLen s ≤ len + 3 →
    byteLen (varLenUnicodeGo len cs s) ≤ len + 3 := by
  induction cs with
  | nil => exact fun s h => h
  | cons c cs ih =>
    intro s h
    rw [varLenUnicodeGo]
    by_cases hg : byteLen s < len
    · rw [if_pos hg]
      by_cases hz : c = 0
      · rw [if_pos hz]
        exact ih s h
      · rw [if_neg hz]
        refine ih (s ++ [c]) ?_
        rw [byteLen_append_one]
        have := utf8Len_le_four c
        omega
    · rw [if_neg hg]
      exact h

theorem varLenUnicodeGo_length (len : Nat) (cs : List Nat) :
    ∀ s : List Nat, s.length ≤ byteLen s →
    (varLenUnicodeGo len cs s).length ≤ max s.length len := by
  induction cs with
  | nil => exact fun s _ => le_max_left _ _
  | cons c cs ih =>
    intro s hs
    rw [varLenUnicodeGo]
    by_cases hg : byteLen s < len
    · rw [if_pos hg]
      by_cases hz : c = 0
      · rw [if_pos hz]
        exact ih s hs
      · rw [if_neg hz]
        have hlen : (s ++ [c]).length ≤ byteLen (s ++ [c]) := by
          rw [List.length_append, List.length_singleton, byteLen_append_one]
          have := utf8Len_pos c
          omega
        have := ih (s ++ [c]) hlen
        rw [List.length_append, List.length_singleton] at this
        have hmax : max (s.length + 1) len = len := by omega
        rw [hmax] at this
        exact le_trans this (le_max_right _ _)
    · rw [if_neg hg]
      exact le_max_left _ _

/-- C8 amended: a generated VarLenAscii value and a generated VarLenArray
value have length exactly the sampled `len ∈ [0, 8]`; a generated
VarLenUnicode value has at most 8 characters, but its BYTE length is only
bounded by `len + 3` (hence 11): the loop compares the byte length against
`len` and a final multi-byte character can overshoot the target by up to
three bytes. -/
theorem var_len_gen_spec {α : Type} (len : Nat) (aDraws : List Nat)
    (eDraws : List α) (uDraws : List Nat) (h8 : len ≤ 8)
    (ha : len ≤ aDraws.length) (he : len ≤ eDraws.length) :
    (varLenAsciiGen len aDraws).length = len ∧
    (varLenArrayGen len eDraws).length = len ∧
    (varLenUnicodeGen len uDraws).length ≤ 8 ∧
    byteLen (varLenUnicodeGen len uDraws) ≤ len + 3 ∧
    byteLen (varLenUnicodeGen len uDraws) ≤ 11 := by
  have hu3 : byteLen (varLenUnicodeGen len uDraws) ≤ len + 3 :=
    varLenUnicodeGo_byteLen len uDraws [] (by simp [byteLen])
  have hul : (varLenUnicodeGen len uDraws).length ≤ 8 := by
    have h := varLenUnicodeGo_length len uDraws [] (by simp [byteLen])
    rw [varLenUnicodeGen]
    simp only [List.length_nil, Nat.zero_max] at h
    omega
  refine ⟨?_, ?_, hul, hu3, by omega⟩
  · rw [varLenAsciiGen, List.length_take]
    omega
  · rw [varLenArrayGen, List.length_take]
    omega

/-- C8 amended witness: at `len = 8` with three draws of U+20AC the value
has 3 ≤ 8 characters and byte length 9 ≤ 11. -/
theorem var_len_gen_spec_witness :
    (varLenAsciiGen 8 [0, 1, 2, 3, 4, 5, 6, 7]).length = 8 ∧
    (varLenArrayGen 8 [0, 1, 2, 3, 4, 5, 6, 7]).length = 8 ∧
    (varLenUnicodeGen 8 [8364, 8364, 8364]).length ≤ 8 ∧
    byteLen (varLenUnicodeGen 8 [8364, 8364, 8364]) ≤ 8 + 3 ∧
    byteLen (varLenUnicodeGen 8 [8364, 8364, 8364]) ≤ 11 :=
  var_len_gen_spec 8 [0, 1, 2, 3, 4, 5, 6, 7] [0, 1, 2, 3, 4, 5, 6, 7]
    [8364, 8364, 8364] (by decide) (by decide) (by decide)

/-! ## C9: fixed-capacity generation bounds -/

/-- C9: a generated FixedAscii value has at most `capacity` bytes, each a
7-bit value, and a generated FixedUnicode value has byte length at most the
capacity (both after sampling `len ∈ Uniform[0, capacity]` and, for ascii,
bytes from `Uniform[0, 127]`). -/
theorem fixed_capacity_le (cap len : Nat) (bdraws : List Nat)
    (hlen : len ≤ cap) (hb : ∀ b ∈ bdraws, b ≤ 127) :
    (fixedAsciiGen len bdraws).length ≤ cap ∧
    (∀ b ∈ fixedAsciiGen len bdraws, b ≤ 127) ∧
    (∀ ulen udraws, ulen ≤ cap → byteLen (fixedUnicodeGen ulen udraws) ≤ cap) := by
  refine ⟨?_, ?_, ?_⟩
  · rw [fixedAsciiGen, List.length_take]
    omega
  · intro b hmem
    exact hb b (List.take_subset _ _ hmem)
  · intro ulen udraws hcap
    have := (fixed_unicode_gen_spec ulen udraws).2.1
    omega

/-- C9 witness: capacity 3, sampled length 2, ascii draws `[65, 66]`, and a
unicode instance at sampled length 3 with draws `"abc"`. -/
theorem fixed_capacity_le_witness :
    (fixedAsciiGen 2 [65, 66]).length ≤ 3 ∧
    (∀ b ∈ fixedAsciiGen 2 [65, 66], b ≤ 127) ∧
    byteLen (fixedUnicodeGen 3 [97, 98, 99]) ≤ 3 :=
  ⟨(fixed_capacity_le 3 2 [65, 66] (by decide) (by decide)).1,
   (fixed_capacity_le 3 2 [65, 66] (by decide) (by decide)).2.1,
   (fixed_capacity_le 3 2 [65, 66] (by decide) (by decide)).2.2 3 [97, 98, 99]
     (by decide)⟩

/-! ## C10: gen_arr and usize overflow -/

/-- C10 counterexample: at `ndim = 64` with every extent draw equal to 2
(each in the legal range `[0, 10]`), the true element count is `2^64`: the
release-build `usize` product wraps to 0, `gen_vec` generates 0 elements,
ndarray's overflow-checked count fails, `from_shape_vec` returns the error
case and the `.unwrap()` in `gen_arr` panics (a debug build already panics
inside `product()`), so `gen_arr` does not avoid panicking for every
`ndim`. -/
theorem gen_arr_panic_counterexample :
    (∀ d ∈ List.replicate 64 (2 : Nat), d < 11) ∧
    wrappingProd (gen_shape (List.replicate 64 2) 64) = 0 ∧
    (gen_arr (List.replicate 64 2) ([] : List Nat) 64).isNone := by
  refine ⟨fun d hd => by rw [List.eq_of_mem_replicate hd]; omega, by decide, by decide⟩

theorem wrappingProd_foldl (l : List Nat) :
    ∀ a : Nat, (∀ n, a * (l.take n).prod < USIZE_SIZE) →
    l.foldl (fun acc x => acc * x % USIZE_SIZE) a = a * l.prod := by
  induction l with
  | nil => intro a _; simp
  | cons x xs ih =>
    intro a h
    have h1 : a * x < USIZE_SIZE := by
      have := h 1
      simpa using this
    rw [List.foldl_cons, Nat.mod_eq_of_lt h1, ih (a * x) ?_, List.prod_cons,
      Nat.mul_assoc]
    intro n
    have := h (n + 1)
    rw [List.take_succ_cons, List.prod_cons, ← Nat.mul_assoc] at this
    exact this

theorem checkedProd_foldl (l : List Nat) :
    ∀ a : Nat, (∀ n, a * (l.take n).prod < USIZE_SIZE) →
    l.foldl
      (fun acc x => acc.bind (fun b => if b * x < USIZE_SIZE then some (b * x) else none))
      (some a) = some (a * l.prod) := by
  induction l with
  | nil => intro a _; simp
  | cons x xs ih =>
    intro a h
    have h1 : a * x < USIZE_SIZE := by
      have := h 1
      simpa using this
    rw [List.foldl_cons]
    have hstep : Option.bind (some a)
        (fun b => if b * x < USIZE_SIZE then some (b * x) else none) = some (a * x) := by
      rw [Option.some_bind, if_pos h1]
    rw [hstep, ih (a * x) ?_, List.prod_cons, Nat.mul_assoc]
    intro n
    have := h (n + 1)
    rw [List.take_succ_cons, List.prod_cons, ← Nat.mul_assoc] at this
    exact this

theorem prefix_prod_lt (l : List Nat) (hx : ∀ x ∈ l, x ≤ 10)
    (hlen : l.length ≤ 19) : ∀ n, 1 * (l.take n).prod < USIZE_SIZE := by
  intro n
  have hb : (l.take n).prod ≤ 10 ^ (l.take n).length :=
    List.prod_le_pow_card _ _ (fun x hm => hx x (List.take_subset _ _ hm))
  have hl : (l.take n).length ≤ 19 := by
    rw [List.length_take]
    omega
  have hp : (10 : Nat) ^ (l.take n).length ≤ 10 ^ 19 :=
    Nat.pow_le_pow_right (by omega) hl
  have hfit : (10 : Nat) ^ 19 < USIZE_SIZE := by decide
  omega

/-- C10 amended: for every random source and every `ndim ≤ 19` (for larger
`ndim` the `usize` product of extents drawn from `[0, 10]` can overflow, and
then `gen_arr` panics), `gen_arr` never panics: `gen_shape` returns exactly
`ndim` extents each in `[0, 10]`, every running product stays at most
`10^19 < 2^64` so the release product does not wrap (nor does a debug build
panic), `gen_vec` produces exactly the product of the extents many elements,
ndarray's overflow-checked count agrees, and the `.unwrap()` is unreachable
on the error branch of `from_shape_vec`. -/
theorem gen_arr_total {α : Type} (ndim : Nat) (sDraws : List Nat)
    (eDraws : List α) (hnd : ndim ≤ 19) (hs : ndim ≤ sDraws.length)
    (hr : ∀ d ∈ sDraws, d < 11)
    (he : (gen_shape sDraws ndim).prod ≤ eDraws.length) :
    (gen_shape sDraws ndim).length = ndim ∧
    (∀ x ∈ gen_shape sDraws ndim, x ≤ 10) ∧
    wrappingProd (gen_shape sDraws ndim) = (gen_shape sDraws ndim).prod ∧
    (gen_vec eDraws (wrappingProd (gen_shape sDraws ndim))).length =
      (gen_shape sDraws ndim).prod ∧
    (gen_arr sDraws eDraws ndim).isSome := by
  have hlen : (gen_shape sDraws ndim).length = ndim := by
    rw [gen_shape, List.length_take]
    omega
  have hx : ∀ x ∈ gen_shape sDraws ndim, x ≤ 10 := by
    intro x hmem
    have := hr x (List.take_subset _ _ hmem)
    omega
  have hpre := prefix_prod_lt (gen_shape sDraws ndim) hx (by omega)
  have hwrap : wrappingProd (gen_shape sDraws ndim) = (gen_shape sDraws ndim).prod := by
    rw [wrappingProd, wrappingProd_foldl _ 1 hpre, Nat.one_mul]
  have hchk : checkedProd (gen_shape sDraws ndim) = some (gen_shape sDraws ndim).prod := by
    rw [checkedProd, checkedProd_foldl _ 1 hpre, Nat.one_mul]
  have hvl : (gen_vec eDraws (wrappingProd (gen_shape sDraws ndim))).length =
      (gen_shape sDraws ndim).prod := by
    rw [hwrap, gen_vec, List.length_take]
    omega
  refine ⟨hlen, hx, hwrap, hvl, ?_⟩
  rw [gen_arr, from_shape_vec]
  simp only [hvl, hchk, if_pos rfl]
  rfl

/-- C10 amended witness: two axes with extents `[2, 3]` and six elements
assemble successfully. -/
theorem gen_arr_total_witness :
    (gen_arr [2, 3] (List.replicate 6 (0 : Nat)) 2).isSome :=
  (gen_arr_total 2 [2, 3] (List.replicate 6 (0 : Nat)) (by decide) (by decide)
    (by decide) (by decide)).2.2.2.2

end Hdf5
